import Mathlib

/-!
Verification of the playhead synchronization and transport-state engine of
the rnbo.example.webpage repository.

The definitions below are shallow embeddings of the JavaScript sources:

* `src/unnamed/part_003` — the v1.9 playlist UI, whose position estimator
  (`normalizeForDisplay`, `paintFromRaw`, `tick`), transport operations
  (`playFromBeginning`, `stopNow`, the `btnLoop` click handler, `seekToFrac`,
  `setJumpToMs`) and playhead-message subscriber are the richest variant.
* `src/js/playlist-ui.js` — an earlier variant contributing `clampJumpToMs`,
  `reorderPlaylist` and its own playhead subscriber.
* `src/unnamed/part_005` — a sibling variant; its functions cited by the
  claims agree with `part_003` on the modelled fragments.

Modelling conventions:
* Finite JavaScript numbers are modelled as `ℚ` (the concrete values the
  claims exercise are exact in ℚ).  Where the source can receive a
  non-finite value (the telemetry payload), the value is modelled by the
  inductive `JSNum`, so `Number.isFinite` guards are explicit.  Guards such
  as `Number.isFinite(rawMs)` applied to values that are `ℚ` in the model
  hold trivially and are noted in the doc comment of the embedding.
* The JavaScript `%` operator (truncated-division remainder) is `jsRem`.
* Mutable module state is threaded explicitly through `EstState`; writes to
  device parameters and trigger pulses are recorded in a `List Cmd` output.
* Wall-clock (`performance.now()`, ms) and audio-context time
  (`context.currentTime`, seconds) are explicit arguments of each step.
-/

/-- Truncation toward zero, the rounding JavaScript division uses when the
`%` operator computes its implied quotient. -/
def jsTrunc (q : ℚ) : ℤ :=
  if 0 ≤ q then ⌊q⌋ else ⌈q⌉

/-- The JavaScript `%` operator on finite numbers: `x % d` is
`x - d * trunc(x / d)` (remainder with the sign of the dividend). -/
def jsRem (x d : ℚ) : ℚ :=
  x - d * (jsTrunc (x / d) : ℚ)

/-- Embedding of `clamp01` (part_003 lines 50–54): clamp a number into
`[0, 1]`. -/
def clamp01 (x : ℚ) : ℚ :=
  if x < 0 then 0 else if 1 < x then 1 else x

/-- A JavaScript number as the telemetry channel can deliver it: a finite
value, `NaN`, or a signed infinity. -/
inductive JSNum where
  | num (q : ℚ)
  | nan
  | posInf
  | negInf
deriving DecidableEq

/-- Embedding of `Number.isFinite`. -/
def JSNum.isFinite : JSNum → Bool
  | .num _ => true
  | _ => false

/-- JavaScript addition lifted to possibly non-finite numbers (`NaN`
propagates; opposite infinities give `NaN`). -/
def JSNum.add : JSNum → JSNum → JSNum
  | .num a, .num b => .num (a + b)
  | .nan, _ => .nan
  | _, .nan => .nan
  | .posInf, .negInf => .nan
  | .negInf, .posInf => .nan
  | .posInf, _ => .posInf
  | _, .posInf => .posInf
  | .negInf, _ => .negInf
  | _, .negInf => .negInf

/-- JavaScript `<` on possibly non-finite numbers: any comparison with
`NaN` is false. -/
def JSNum.lt : JSNum → JSNum → Bool
  | .num a, .num b => decide (a < b)
  | .num _, .posInf => true
  | .negInf, .num _ => true
  | .negInf, .posInf => true
  | _, _ => false

/-- JavaScript `<=` on possibly non-finite numbers: any comparison with
`NaN` is false. -/
def JSNum.le : JSNum → JSNum → Bool
  | .num a, .num b => decide (a ≤ b)
  | .num _, .posInf => true
  | .negInf, .num _ => true
  | .negInf, .negInf => true
  | .negInf, .posInf => true
  | .posInf, .posInf => true
  | _, _ => false

/-- JavaScript `>`. -/
def JSNum.gt (a b : JSNum) : Bool := JSNum.lt b a

/-- Constant `END_EPS_MS` (part_003 line 37): epsilon in ms for EOF
detection. -/
def END_EPS_MS : ℚ := 3

/-- Constant `REVERSE_EOF_GRACE_MS` (part_003 line 40): grace window right
after hitting play in reverse. -/
def REVERSE_EOF_GRACE_MS : ℚ := 140

/-- Constant `PORT_FRESH_MS` (part_003 line 36): if the port is staler than
this, estimate from AudioContext time. -/
def PORT_FRESH_MS : ℚ := 300

/-- Device-facing effects emitted by the transport and estimator code:
trigger pulses and parameter writes, in program order. -/
inductive Cmd where
  | stopPulse
  | playPulse
  | setLoopParam (v : ℚ)
  | setJumpTo (ms : ℚ)
  | scheduleLoopRevert
deriving DecidableEq

/-- The mutable module state of part_003's estimator/transport
(lines 510–532): loop flag, logical playing flag, raw port playhead and its
arrival stamp, the rebase offset, the extrapolation anchor pair, the
displayed position, the post-EOF latch, and the reverse-EOF grace
deadline. -/
structure EstState where
  isLoop : Bool
  isPlayingUI : Bool
  portPlayheadMs : ℚ
  lastPortAt : ℚ
  portOffsetMs : ℚ
  anchorCtxTime : ℚ
  anchorRawMs : ℚ
  displayMs : ℚ
  didAutoResetAfterEOF : Bool
  reverseEOFIgnoreUntil : ℚ
deriving DecidableEq

/-- Result record of `normalizeForDisplay`. -/
structure NormResult where
  display : ℚ
  eof : Bool
deriving DecidableEq

/-- Embedding of `normalizeForDisplay(rawMs, totalMs)` (part_003 lines
562–592).  The source's `Number.isFinite(rawMs) / Number.isFinite(totalMs)`
guards hold trivially for `ℚ` arguments, leaving the `totalMs <= 0` guard.
`getRateNow()` and `performance.now()` are the `rateNow` and `now`
arguments; `reverseEOFIgnoreUntil` is read from the estimator state. -/
def normalizeForDisplay (isLoop : Bool) (rateNow now reverseEOFIgnoreUntil : ℚ)
    (rawMs totalMs : ℚ) : NormResult :=
  if totalMs ≤ 0 then
    { display := 0, eof := false }
  else if isLoop then
    let m := jsRem rawMs totalMs
    let d := if m < 0 then m + totalMs else m
    { display := d, eof := false }
  else if rateNow < 0 then
    if reverseEOFIgnoreUntil ≤ now ∧ rawMs ≤ END_EPS_MS then
      { display := 0, eof := true }
    else
      { display := min (max rawMs 0) totalMs, eof := false }
  else
    if totalMs - END_EPS_MS ≤ rawMs then
      { display := totalMs, eof := true }
    else
      { display := min (max rawMs 0) totalMs, eof := false }

/-- Embedding of `getEffectiveRaw()` (part_003 lines 557–560); the
`Number.isFinite` fallback to 0 is unreachable for `ℚ` state. -/
def getEffectiveRaw (s : EstState) : ℚ :=
  s.portPlayheadMs - s.portOffsetMs

/-- Embedding of `resetUIToStart()` (part_003 lines 549–555) restricted to
estimator state: display to 0 and latch the post-EOF flag (the DOM updates
it performs are outside the model). -/
def resetUIToStart (s : EstState) : EstState :=
  { s with displayMs := 0, didAutoResetAfterEOF := true }

/-- Embedding of `paintFromRaw(rawMs)` (part_003 lines 594–617): normalize,
store the display value, and on EOF with loop off drop the playing flag,
pulse the stop trigger and reset the UI to the start. -/
def paintFromRaw (s : EstState) (rateNow now totalMs rawMs : ℚ) :
    EstState × List Cmd :=
  let norm := normalizeForDisplay s.isLoop rateNow now s.reverseEOFIgnoreUntil rawMs totalMs
  let s1 := { s with displayMs := norm.display }
  if norm.eof = true ∧ s1.isLoop = false then
    let s2 := if s1.isPlayingUI then { s1 with isPlayingUI := false } else s1
    (resetUIToStart s2, [Cmd.stopPulse])
  else
    (s1, [])

/-- Embedding of the UI `tick()` loop body (part_003 lines 992–1012),
restricted to the estimator effects (the `requestAnimationFrame`
re-scheduling and `lastPaintAt` throttling bookkeeping touch no modelled
state).  While playing, a fresh port (within `PORT_FRESH_MS`) paints from
the effective raw value; a stale port paints from the wall-clock
extrapolation `anchorRawMs + elapsedSec * 1000 * (getRateNow() || 1)`.
While idle the UI repaints position 0 unless the post-EOF latch holds. -/
def tick (s : EstState) (now ctxTime rateNow totalMs : ℚ) :
    EstState × List Cmd :=
  if s.isPlayingUI = true then
    if now - s.lastPortAt < PORT_FRESH_MS then
      paintFromRaw s rateNow now totalMs (getEffectiveRaw s)
    else
      let elapsedSec := max 0 (ctxTime - s.anchorCtxTime)
      let estRaw := s.anchorRawMs + elapsedSec * 1000 * (if rateNow = 0 then 1 else rateNow)
      paintFromRaw s rateNow now totalMs estRaw
  else
    if s.didAutoResetAfterEOF = true then (s, [])
    else paintFromRaw s rateNow now totalMs 0

/-- The value `setJumpToMs(targetMs, itemDurationMs)` (part_003 lines
396–412) assigns to the device's `jumpto` parameter: clamp the target into
`[0, dur]` (note: not `[0, dur - 1]`), then divide by the duration when the
parameter's declared maximum marks it as normalized (`declaredMax` is
`none` when no finite maximum is declared). -/
def setJumpToWritten (targetMs itemDurationMs : ℚ) (declaredMax : Option ℚ) : ℚ :=
  let dur := max 0 itemDurationMs
  let ms := max 0 (if 0 < dur then min targetMs dur else targetMs)
  let useNormalized :=
    match declaredMax with
    | some m => decide (m ≤ 1.0001)
    | none => false
  if useNormalized = true ∧ 0 < dur then clamp01 (ms / dur) else ms

/-- Embedding of `playFromBeginning()` (part_003 lines 827–884): pulse
stop, reset the timebase, arm the reverse-EOF grace window, reset the UI,
optionally pre-seek the start position through `jumpto`, mark playback
logically active, and pulse play (with the legacy reverse loop-assist when
no `jumpto` parameter exists).  `hasJumpTo` is `supportsJumpTo()`;
`declaredMax` is the `jumpto` parameter's declared maximum. -/
def playFromBeginning (s : EstState) (now ctxTime rateNow totalMs : ℚ)
    (hasJumpTo : Bool) (declaredMax : Option ℚ) : EstState × List Cmd :=
  let s1 := { s with
    portPlayheadMs := 0, lastPortAt := 0, portOffsetMs := 0,
    anchorCtxTime := ctxTime, anchorRawMs := 0,
    didAutoResetAfterEOF := false,
    reverseEOFIgnoreUntil := if rateNow < 0 then now + REVERSE_EOF_GRACE_MS else 0 }
  let s2 := resetUIToStart s1
  let startMs := if rateNow < 0 then max 0 (totalMs - 1) else 0
  let s3 :=
    if hasJumpTo = true ∧ 0 < totalMs then
      { s2 with portOffsetMs := s2.portPlayheadMs - startMs,
                anchorCtxTime := ctxTime, anchorRawMs := startMs }
    else s2
  let jumpCmds :=
    if hasJumpTo = true ∧ 0 < totalMs then
      [Cmd.setJumpTo (setJumpToWritten startMs totalMs declaredMax)]
    else []
  let s4 := { s3 with isPlayingUI := true }
  if rateNow < 0 ∧ s4.isLoop = false ∧ hasJumpTo = false then
    (s4, Cmd.stopPulse :: jumpCmds ++ [Cmd.setLoopParam 1, Cmd.playPulse, Cmd.scheduleLoopRevert])
  else
    (s4, Cmd.stopPulse :: jumpCmds ++ [Cmd.playPulse])

/-- Embedding of `stopNow()` (part_003 lines 886–913): pulse stop, drop the
playing flag, reset the timebase and grace deadline, force `jumpto` back to
0 when available, and reset the UI to the start. -/
def stopNow (s : EstState) (ctxTime totalMs : ℚ) (hasJumpTo : Bool)
    (declaredMax : Option ℚ) : EstState × List Cmd :=
  let s1 := { s with
    isPlayingUI := false,
    portPlayheadMs := 0, lastPortAt := 0, portOffsetMs := 0,
    anchorCtxTime := ctxTime, anchorRawMs := 0,
    didAutoResetAfterEOF := false, reverseEOFIgnoreUntil := 0 }
  let s2 :=
    if hasJumpTo = true ∧ 0 < totalMs then
      { s1 with portOffsetMs := s1.portPlayheadMs - 0,
                anchorCtxTime := ctxTime, anchorRawMs := 0 }
    else s1
  let jumpCmds :=
    if hasJumpTo = true ∧ 0 < totalMs then
      [Cmd.setJumpTo (setJumpToWritten 0 totalMs declaredMax)]
    else []
  (resetUIToStart s2, Cmd.stopPulse :: jumpCmds)

/-- Embedding of the `btnLoop` click handler (part_003 lines 923–946): flip
the loop flag, write the device's loop parameter, and when turning loop OFF
rebase the effective time so the display keeps its current value, then
repaint. -/
def toggleLoopClick (s : EstState) (now ctxTime rateNow totalMs : ℚ) :
    EstState × List Cmd :=
  let isLoop2 := !s.isLoop
  let s0 := { s with isLoop := isLoop2 }
  let loopCmd := Cmd.setLoopParam (if isLoop2 then 1 else 0)
  if s.isLoop = true ∧ isLoop2 = false then
    let s1 := { s0 with portOffsetMs := s0.portPlayheadMs - s0.displayMs,
                        anchorCtxTime := ctxTime, anchorRawMs := s0.displayMs }
    let pr := paintFromRaw s1 rateNow now totalMs s0.displayMs
    (pr.1, loopCmd :: pr.2)
  else
    let pr := paintFromRaw s0 rateNow now totalMs (getEffectiveRaw s0)
    (pr.1, loopCmd :: pr.2)

/-- Embedding of `seekToFrac(frac01, startIfPlaying)` (part_003 lines
627–647): write `jumpto` at `clamp01(frac) * durationMs`, rebase the
offset and anchors to the target, repaint from the target, and re-assert
the playing flag when requested.  The `!it || !supportsJumpTo()` guard is
the `hasJumpTo` test (an item with duration `totalMs` is selected). -/
def seekToFrac (s : EstState) (frac : ℚ) (startIfPlaying : Bool)
    (now ctxTime rateNow totalMs : ℚ) (hasJumpTo : Bool)
    (declaredMax : Option ℚ) : EstState × List Cmd :=
  if hasJumpTo = false then (s, [])
  else
    let targetMs := clamp01 frac * totalMs
    let jumpCmd := Cmd.setJumpTo (setJumpToWritten targetMs totalMs declaredMax)
    let s1 := { s with portOffsetMs := s.portPlayheadMs - targetMs,
                       anchorCtxTime := ctxTime, anchorRawMs := targetMs,
                       didAutoResetAfterEOF := false }
    let pr := paintFromRaw s1 rateNow now totalMs targetMs
    let s2 := if startIfPlaying then { pr.1 with isPlayingUI := true } else pr.1
    (s2, jumpCmd :: pr.2)

/-- Embedding of the `device.messageEvent` subscriber (part_003 lines
973–987): ignore events not tagged `playhead`, discard non-finite payloads,
otherwise store the raw port position, stamp its arrival, and re-anchor
the extrapolation fallback at the current effective time. -/
def onPlayheadMessage (s : EstState) (tag : String) (payload0 : JSNum)
    (now ctxTime : ℚ) : EstState :=
  if tag ≠ "playhead" then s
  else
    match payload0 with
    | JSNum.num v =>
        let s1 := { s with portPlayheadMs := v, lastPortAt := now }
        { s1 with anchorCtxTime := ctxTime, anchorRawMs := getEffectiveRaw s1 }
    | _ => s

/-- Constant `JUMPTO_MIN_MS` (playlist-ui.js line 42). -/
def JUMPTO_MIN_MS : ℚ := 0

/-- Constant `JUMPTO_MAX_MS` (playlist-ui.js line 43). -/
def JUMPTO_MAX_MS : ℚ := 600000

/-- Constant `PLAYHEAD_THROTTLE_MS` (playlist-ui.js line 39). -/
def PLAYHEAD_THROTTLE_MS : ℚ := 16

/-- Embedding of `clampJumpToMs(ms, durationMsOrNull)` (playlist-ui.js
lines 407–420): clamp into the parameter range `[JUMPTO_MIN_MS,
JUMPTO_MAX_MS]`, then, when a finite duration greater than 1 is provided,
clamp into `[0, floor(duration - 1)]` (avoiding exactly the end).  The
leading `Number.isFinite(v)` fallback is trivial for `ℚ` input; a `null`
or non-finite duration is `none`. -/
def clampJumpToMs (ms : ℚ) (durationMsOrNull : Option ℚ) : ℚ :=
  let v := max JUMPTO_MIN_MS (min JUMPTO_MAX_MS ms)
  match durationMsOrNull with
  | some dur => if 1 < dur then max 0 (min v ((⌊dur - 1⌋ : ℤ) : ℚ)) else v
  | none => v

/-- The mutable state read and written by playlist-ui.js's playhead
subscriber (lines 468–470, 722): the inferred playing flag, the post-EOF
latch, the last raw playhead value (possibly non-finite, since this
variant does not guard the payload), the paint throttle stamp, and the
value last painted to the readout (`none` before any paint). -/
structure PlState where
  isPlaying : Bool
  endedAndStopped : Bool
  lastPlayheadMs : JSNum
  lastPaint : ℚ
  readout : Option JSNum
deriving DecidableEq

/-- Embedding of playlist-ui.js's `device.messageEvent` subscriber (lines
724–765): infer activity from a playhead advancing by more than 1 ms,
detect EOF when loop is off and the playhead drops to `<= 0` after being
positive (pulsing stop, resetting `jumpto`, painting 0), otherwise store
the raw value and, when playing and unthrottled, paint it.  `loopVal` is
`pLoop.value ?? 0`; `hasJumpTo` is `supportsJumpTo()`. -/
def plSubscriber (st : PlState) (tag : String) (ms : JSNum)
    (now loopVal : ℚ) (hasJumpTo : Bool) (durationMs : ℚ) :
    PlState × List Cmd :=
  if tag ≠ "playhead" then (st, [])
  else
    let st1 :=
      if JSNum.gt ms (JSNum.add st.lastPlayheadMs (JSNum.num 1)) = true then
        { st with isPlaying := true, endedAndStopped := false }
      else st
    if ¬ (1/2 : ℚ) ≤ loopVal ∧ st1.endedAndStopped = false ∧
        JSNum.le ms (JSNum.num 0) = true ∧
        JSNum.gt st1.lastPlayheadMs (JSNum.num 0) = true then
      let jumpCmds :=
        if hasJumpTo = true ∧ 0 < durationMs then
          [Cmd.setJumpTo (clampJumpToMs 0 (some durationMs))]
        else []
      ({ st1 with isPlaying := false, endedAndStopped := true,
                  lastPlayheadMs := JSNum.num 0,
                  readout := some (JSNum.num 0) },
       Cmd.stopPulse :: jumpCmds)
    else
      let st2 := { st1 with lastPlayheadMs := ms }
      if st2.isPlaying = false then (st2, [])
      else if now - st2.lastPaint < PLAYHEAD_THROTTLE_MS then (st2, [])
      else ({ st2 with lastPaint := now, readout := some ms }, [])

/-- JavaScript `items.splice(from, 1)` followed by `items.splice(to, 0,
moved)` for an in-range `from`: remove the element at `from` and re-insert
it at position `to` of the shortened list. -/
def spliceMove {α : Type} (items : List α) (fromIdx toIdx : ℕ) : List α :=
  match items.get? fromIdx with
  | none => items
  | some a => (items.eraseIdx fromIdx).insertIdx toIdx a

/-- Embedding of the `drop` handler of part_003's `renderList` (lines
772–792), restricted to the list and selection updates: splice the moved
row into place, then look up `items[selectedIdx].name` — in the ALREADY
spliced list — and re-find that name (`findIndex >= 0 ? it : 0`).  The
`!Number.isFinite(from) || from === to` guard keeps equal indices
untouched.  Clips are identified by their (unique) names. -/
def dropHandlerPart003 (items : List String) (selectedIdx fromIdx toIdx : ℕ) :
    List String × ℕ :=
  if fromIdx = toIdx then (items, selectedIdx)
  else
    let items2 := spliceMove items fromIdx toIdx
    let newSel :=
      match items2.get? selectedIdx with
      | some currentName => (items2.findIdx? (fun x => x = currentName)).getD 0
      | none => 0
    (items2, newSel)

/-- Embedding of `reorderPlaylist(fromIndex, toIndex)` (playlist-ui.js
lines 1746–1770): `toIndex` is an insertion-gap index which is decremented
when moving down, the item is spliced, and `currentIndex` follows the
moved item or shifts by one when the move crosses it. -/
def reorderPlaylist (items : List String) (currentIndex fromIndex toIndex : ℕ) :
    List String × ℕ :=
  let to2 := if fromIndex < toIndex then toIndex - 1 else toIndex
  let items2 := spliceMove items fromIndex to2
  let cur2 :=
    if currentIndex = fromIndex then to2
    else if fromIndex < currentIndex ∧ currentIndex ≤ to2 then currentIndex - 1
    else if currentIndex < fromIndex ∧ to2 ≤ currentIndex then currentIndex + 1
    else currentIndex
  (items2, cur2)

/-- A playing, loop-off estimator state with zeroed timebase: the state
right after `playFromBeginning` with a forward rate and no `jumpto`
parameter, used to exercise the concrete scenarios of the spec's testable
properties. -/
def playingState : EstState :=
  { isLoop := false, isPlayingUI := true, portPlayheadMs := 0,
    lastPortAt := 0, portOffsetMs := 0, anchorCtxTime := 0,
    anchorRawMs := 0, displayMs := 0, didAutoResetAfterEOF := false,
    reverseEOFIgnoreUntil := 0 }

/-- `playingState` with loop enabled, mid-playback on a 3000 ms track:
raw telemetry 2998 displays (mod) 2998, within `END_EPS_MS` of the end. -/
def loopingNearEndState : EstState :=
  { playingState with isLoop := true, portPlayheadMs := 2998, displayMs := 2998 }

/-- `playingState` with loop enabled, raw telemetry 7000 on a 3000 ms
track displaying the wrapped 1000, the spec's loop-off rebase scenario. -/
def loopingAt7000State : EstState :=
  { playingState with isLoop := true, portPlayheadMs := 7000, displayMs := 1000 }

/-- The idle state of playlist-ui.js's subscriber right after
initialization (lines 468–470, 722): not playing, EOF latch set,
playhead 0. -/
def plIdleState : PlState :=
  { isPlaying := false, endedAndStopped := true, lastPlayheadMs := JSNum.num 0,
    lastPaint := 0, readout := none }

/-- A playing state of playlist-ui.js's subscriber mid-track: playhead
500 ms, last paint long ago. -/
def plPlayingState : PlState :=
  { isPlaying := true, endedAndStopped := false, lastPlayheadMs := JSNum.num 500,
    lastPaint := 0, readout := some (JSNum.num 500) }

theorem jsRem_bounds_of_nonneg (x d : ℚ) (hd : 0 < d) (hx : 0 ≤ x) :
    0 ≤ jsRem x d ∧ jsRem x d < d := by
  have hq : (0:ℚ) ≤ x / d := div_nonneg hx hd.le
  have hrem : jsRem x d = x - d * (⌊x / d⌋ : ℚ) := by
    simp [jsRem, jsTrunc, if_pos hq]
  have h1 : ((⌊x / d⌋ : ℤ) : ℚ) ≤ x / d := Int.floor_le _
  have h2 : x / d < (⌊x / d⌋ : ℚ) + 1 := Int.lt_floor_add_one _
  have hxd : d * (x / d) = x := by field_simp
  have h1' : d * ((⌊x / d⌋ : ℤ) : ℚ) ≤ d * (x / d) :=
    mul_le_mul_of_nonneg_left h1 hd.le
  have h2' : d * (x / d) < d * ((⌊x / d⌋ : ℚ) + 1) :=
    mul_lt_mul_of_pos_left h2 hd
  constructor
  · rw [hrem]; rw [hxd] at h1'; linarith
  · rw [hrem]; rw [hxd] at h2'; rw [mul_add, mul_one] at h2'; linarith

theorem jsRem_bounds_of_neg (x d : ℚ) (hd : 0 < d) (hx : x < 0) :
    -d < jsRem x d ∧ jsRem x d ≤ 0 := by
  have hq : ¬ (0:ℚ) ≤ x / d := not_le.mpr (div_neg_of_neg_of_pos hx hd)
  have hrem : jsRem x d = x - d * (⌈x / d⌉ : ℚ) := by
    simp [jsRem, jsTrunc, if_neg hq]
  have h1 : x / d ≤ ((⌈x / d⌉ : ℤ) : ℚ) := Int.le_ceil _
  have h2 : ((⌈x / d⌉ : ℤ) : ℚ) < x / d + 1 := Int.ceil_lt_add_one _
  have hxd : d * (x / d) = x := by field_simp
  have h1' : d * (x / d) ≤ d * ((⌈x / d⌉ : ℤ) : ℚ) :=
    mul_le_mul_of_nonneg_left h1 hd.le
  have h2' : d * ((⌈x / d⌉ : ℚ)) < d * (x / d + 1) :=
    mul_lt_mul_of_pos_left h2 hd
  constructor
  · rw [hrem]; rw [mul_add, mul_one, hxd] at h2'; linarith
  · rw [hrem]; rw [hxd] at h1'; linarith

theorem jsRem_lower (x d : ℚ) (hd : 0 < d) : -d < jsRem x d := by
  rcases le_or_lt 0 x with hx | hx
  · have := (jsRem_bounds_of_nonneg x d hd hx).1; linarith
  · exact (jsRem_bounds_of_neg x d hd hx).1

theorem jsRem_upper (x d : ℚ) (hd : 0 < d) : jsRem x d < d := by
  rcases le_or_lt 0 x with hx | hx
  · exact (jsRem_bounds_of_nonneg x d hd hx).2
  · have := (jsRem_bounds_of_neg x d hd hx).2; linarith

/-- The branchy normalization of the loop branch of `normalizeForDisplay`
(`mod < 0 ? mod + totalMs : mod`) agrees with the specification's formula
`((x % d) + d) % d`. -/
theorem loop_branch_eq_spec_formula (x d : ℚ) (hd : 0 < d) :
    (if jsRem x d < 0 then jsRem x d + d else jsRem x d) =
      jsRem (jsRem x d + d) d := by
  have hlow : -d < jsRem x d := jsRem_lower x d hd
  have hup : jsRem x d < d := jsRem_upper x d hd
  set m := jsRem x d with hmdef
  have hnn : (0:ℚ) ≤ m + d := by linarith
  have hqnn : (0:ℚ) ≤ (m + d) / d := div_nonneg hnn hd.le
  have hrem2 : jsRem (m + d) d = (m + d) - d * (⌊(m + d) / d⌋ : ℚ) := by
    rw [jsRem, jsTrunc, if_pos hqnn]
  have hdiv : (m + d) / d = m / d + 1 := by field_simp
  rcases lt_or_le m 0 with hmneg | hmnn
  · have hq1 : (-1 : ℚ) ≤ m / d := by
      rw [le_div_iff₀ hd]; linarith
    have hq2 : m / d < 0 := div_neg_of_neg_of_pos hmneg hd
    have hfl : ⌊m / d⌋ = -1 := by
      rw [Int.floor_eq_iff]
      constructor
      · push_cast; linarith
      · push_cast; linarith
    have hfl2 : ⌊(m + d) / d⌋ = 0 := by
      rw [hdiv, Int.floor_add_one, hfl]; norm_num
    rw [if_pos hmneg, hrem2, hfl2]
    push_cast; ring
  · have hq1 : (0 : ℚ) ≤ m / d := div_nonneg hmnn hd.le
    have hq2 : m / d < 1 := (div_lt_one hd).mpr hup
    have hfl : ⌊m / d⌋ = 0 := by
      rw [Int.floor_eq_iff]
      constructor
      · push_cast; linarith
      · push_cast; linarith
    have hfl2 : ⌊(m + d) / d⌋ = 1 := by
      rw [hdiv, Int.floor_add_one, hfl]; norm_num
    rw [if_neg (not_lt.mpr hmnn), hrem2, hfl2]
    push_cast; ring

/-- While looping (and with a positive duration), `normalizeForDisplay`
returns the wrapped value `mod < 0 ? mod + totalMs : mod` and never
reports EOF. -/
theorem normalizeForDisplay_loop (rateNow now ign x d : ℚ) (hd : 0 < d) :
    normalizeForDisplay true rateNow now ign x d =
      { display := if jsRem x d < 0 then jsRem x d + d else jsRem x d,
        eof := false } := by
  rw [normalizeForDisplay, if_neg (not_le.mpr hd)]
  rfl

/-- While looping, `paintFromRaw` only stores the wrapped display value:
no EOF branch is taken, so no command is issued and no other field
changes. -/
theorem paintFromRaw_loop (s : EstState) (rateNow now x d : ℚ)
    (hLoop : s.isLoop = true) (hd : 0 < d) :
    paintFromRaw s rateNow now d x =
      ({ s with displayMs := if jsRem x d < 0 then jsRem x d + d else jsRem x d }, []) := by
  simp only [paintFromRaw, hLoop, normalizeForDisplay_loop _ _ _ _ _ hd]
  simp [hLoop]

/-- A `playhead` message with a finite payload stores the raw value, stamps
its arrival, and re-anchors extrapolation at the new effective time. -/
theorem onPlayheadMessage_num (s : EstState) (v now ctx : ℚ) :
    onPlayheadMessage s "playhead" (JSNum.num v) now ctx =
      { s with portPlayheadMs := v, lastPortAt := now,
               anchorCtxTime := ctx, anchorRawMs := v - s.portOffsetMs } := by
  simp [onPlayheadMessage, getEffectiveRaw]

/-- While playing with fresh telemetry, `tick` paints from the effective
raw value `portPlayheadMs - portOffsetMs`. -/
theorem tick_fresh (s : EstState) (now ctx rate d : ℚ)
    (hplay : s.isPlayingUI = true)
    (hfresh : now - s.lastPortAt < PORT_FRESH_MS) :
    tick s now ctx rate d = paintFromRaw s rate now d (getEffectiveRaw s) := by
  rw [tick, if_pos hplay, if_pos hfresh]

/-- While playing with stale telemetry, `tick` paints from the wall-clock
extrapolation anchored at `anchorRawMs`. -/
theorem tick_stale (s : EstState) (now ctx rate d : ℚ)
    (hplay : s.isPlayingUI = true)
    (hstale : ¬ now - s.lastPortAt < PORT_FRESH_MS) :
    tick s now ctx rate d =
      paintFromRaw s rate now d
        (s.anchorRawMs + max 0 (ctx - s.anchorCtxTime) * 1000 *
          (if rate = 0 then 1 else rate)) := by
  rw [tick, if_pos hplay, if_neg hstale]

/-- While idle with the post-EOF latch set, `tick` changes nothing and
issues no command. -/
theorem tick_idle_latched (s : EstState) (now ctx rate d : ℚ)
    (hplay : s.isPlayingUI = false)
    (hlatch : s.didAutoResetAfterEOF = true) :
    tick s now ctx rate d = (s, []) := by
  rw [tick, if_neg (by rw [hplay]; simp), if_pos hlatch]

/-- Forward-rate EOF branch of `paintFromRaw`: loop off, rate not
negative, raw at or beyond `durationMs - END_EPS_MS` — drop the playing
flag, reset the display to 0, latch, and pulse stop exactly once. -/
theorem paintFromRaw_eof_forward (s : EstState) (rate now d raw : ℚ)
    (hloop : s.isLoop = false) (hplay : s.isPlayingUI = true)
    (hrate : ¬ rate < 0) (hd : 0 < d) (hraw : d - END_EPS_MS ≤ raw) :
    paintFromRaw s rate now d raw =
      ({ s with isPlayingUI := false, displayMs := 0,
                didAutoResetAfterEOF := true }, [Cmd.stopPulse]) := by
  have hnorm : normalizeForDisplay s.isLoop rate now s.reverseEOFIgnoreUntil raw d =
      { display := d, eof := true } := by
    rw [hloop, normalizeForDisplay, if_neg (not_le.mpr hd)]
    simp only [Bool.false_eq_true, if_false]
    rw [if_neg hrate, if_pos hraw]
  simp only [paintFromRaw, hnorm]
  simp [hplay, hloop, resetUIToStart]

/-- In-range forward branch of `paintFromRaw`: loop off, rate not
negative, raw inside `[0, durationMs - END_EPS_MS)` — the raw value is
displayed unchanged and nothing else happens. -/
theorem paintFromRaw_forward_inrange (s : EstState) (rate now d raw : ℚ)
    (hloop : s.isLoop = false) (hrate : ¬ rate < 0) (hd : 0 < d)
    (hraw1 : 0 ≤ raw) (hraw2 : raw < d - END_EPS_MS) :
    paintFromRaw s rate now d raw = ({ s with displayMs := raw }, []) := by
  have hle : raw ≤ d := by
    have : END_EPS_MS = 3 := rfl
    linarith [hraw2, this ▸ hraw2]
  have hnorm : normalizeForDisplay s.isLoop rate now s.reverseEOFIgnoreUntil raw d =
      { display := raw, eof := false } := by
    rw [hloop, normalizeForDisplay, if_neg (not_le.mpr hd)]
    simp only [Bool.false_eq_true, if_false]
    rw [if_neg hrate, if_neg (not_le.mpr hraw2)]
    rw [max_eq_left hraw1, min_eq_left hle]
  simp only [paintFromRaw, hnorm]
  simp

/-- Reverse-rate grace branch of `paintFromRaw`: while the wall clock is
still inside the reverse-EOF grace window, no EOF is detected for any raw
value; the display is merely clamped. -/
theorem paintFromRaw_reverse_grace (s : EstState) (rate now d raw : ℚ)
    (hloop : s.isLoop = false) (hrate : rate < 0) (hd : 0 < d)
    (hgrace : now < s.reverseEOFIgnoreUntil) :
    paintFromRaw s rate now d raw =
      ({ s with displayMs := min (max raw 0) d }, []) := by
  have hnorm : normalizeForDisplay s.isLoop rate now s.reverseEOFIgnoreUntil raw d =
      { display := min (max raw 0) d, eof := false } := by
    rw [hloop, normalizeForDisplay, if_neg (not_le.mpr hd)]
    simp only [Bool.false_eq_true, if_false]
    rw [if_pos hrate, if_neg]
    intro hcontr
    exact absurd hcontr.1 (not_le.mpr hgrace)
  simp only [paintFromRaw, hnorm]
  simp

/-- Reverse-rate EOF branch of `paintFromRaw`: once the grace window has
elapsed, a raw value at or below `END_EPS_MS` triggers the stop-and-reset
behavior. -/
theorem paintFromRaw_reverse_eof (s : EstState) (rate now d raw : ℚ)
    (hloop : s.isLoop = false) (hplay : s.isPlayingUI = true)
    (hrate : rate < 0) (hd : 0 < d)
    (hwin : s.reverseEOFIgnoreUntil ≤ now) (hraw : raw ≤ END_EPS_MS) :
    paintFromRaw s rate now d raw =
      ({ s with isPlayingUI := false, displayMs := 0,
                didAutoResetAfterEOF := true }, [Cmd.stopPulse]) := by
  have hnorm : normalizeForDisplay s.isLoop rate now s.reverseEOFIgnoreUntil raw d =
      { display := 0, eof := true } := by
    rw [hloop, normalizeForDisplay, if_neg (not_le.mpr hd)]
    simp only [Bool.false_eq_true, if_false]
    rw [if_pos hrate, if_pos ⟨hwin, hraw⟩]
  simp only [paintFromRaw, hnorm]
  simp [hplay, hloop, resetUIToStart]

/-- C2: with loop enabled and a positive duration, `paintFromRaw` displays
the wrapped position `((x % d) + d) % d`, the result lies in `[0, d)`, no
End-of-media transition occurs (no command is issued and the playing flag
is untouched); concretely, raw 3500 on a 3000 ms track displays 500 and
raw -200 displays 2800. -/
theorem loop_wrap_display_mod :
    (∀ (s : EstState) (rateNow now x d : ℚ), s.isLoop = true → 0 < d →
      (paintFromRaw s rateNow now d x).1.displayMs = jsRem (jsRem x d + d) d ∧
      0 ≤ (paintFromRaw s rateNow now d x).1.displayMs ∧
      (paintFromRaw s rateNow now d x).1.displayMs < d ∧
      (paintFromRaw s rateNow now d x).2 = [] ∧
      (paintFromRaw s rateNow now d x).1.isPlayingUI = s.isPlayingUI) ∧
    (normalizeForDisplay true 1 0 0 3500 3000).display = 500 ∧
    (normalizeForDisplay true 1 0 0 (-200) 3000).display = 2800 := by
  refine ⟨?_, ?_, ?_⟩
  · intro s rateNow now x d hLoop hd
    rw [paintFromRaw_loop s rateNow now x d hLoop hd]
    dsimp only
    refine ⟨loop_branch_eq_spec_formula x d hd, ?_, ?_, rfl, rfl⟩
    · rcases lt_or_le (jsRem x d) 0 with hm | hm
      · have := jsRem_lower x d hd
        rw [if_pos hm]; linarith
      · rw [if_neg (not_lt.mpr hm)]; exact hm
    · rcases lt_or_le (jsRem x d) 0 with hm | hm
      · rw [if_pos hm]; linarith
      · have := jsRem_upper x d hd
        rw [if_neg (not_lt.mpr hm)]; linarith
  · rw [normalizeForDisplay_loop 1 0 0 3500 3000 (by norm_num)]
    norm_num [jsRem, jsTrunc]
  · rw [normalizeForDisplay_loop 1 0 0 (-200) 3000 (by norm_num)]
    have hm : jsRem (-200) 3000 = -200 := by
      have hc : ⌈((-200 : ℚ) / 3000)⌉ = 0 := by
        rw [Int.ceil_eq_iff]; constructor <;> norm_num
      rw [jsRem, jsTrunc, if_neg (by norm_num : ¬ (0:ℚ) ≤ (-200 : ℚ)/3000), hc]
      norm_num
    dsimp only
    rw [hm]
    norm_num

/-- Witness for C2: the general statement applied at raw 3500 on a 3000 ms
track, with the bounds evaluated there. -/
theorem loop_wrap_display_mod_witness :
    (paintFromRaw
      { isLoop := true, isPlayingUI := true, portPlayheadMs := 3500,
        lastPortAt := 0, portOffsetMs := 0, anchorCtxTime := 0,
        anchorRawMs := 0, displayMs := 0, didAutoResetAfterEOF := false,
        reverseEOFIgnoreUntil := 0 } 1 0 3000 3500).1.displayMs =
      jsRem (jsRem 3500 3000 + 3000) 3000 ∧
    (paintFromRaw
      { isLoop := true, isPlayingUI := true, portPlayheadMs := 3500,
        lastPortAt := 0, portOffsetMs := 0, anchorCtxTime := 0,
        anchorRawMs := 0, displayMs := 0, didAutoResetAfterEOF := false,
        reverseEOFIgnoreUntil := 0 } 1 0 3000 3500).2 = [] :=
  ⟨(loop_wrap_display_mod.1 _ 1 0 3500 3000 rfl (by norm_num)).1,
   (loop_wrap_display_mod.1 _ 1 0 3500 3000 rfl (by norm_num)).2.2.2.1⟩

/-- C1 (amended): with loop disabled and a forward rate, once fresh
telemetry reports a raw position at or beyond `durationMs - END_EPS_MS`
(epsilon is 3 ms — so 4997 on a 5000 ms track, not 4990), the next tick
issues exactly one stop pulse, drops the logical playing flag
(transition to Idle), and forces the display to 0 rather than leaving it
at the boundary; the following tick is a no-op, so no second pulse is
ever issued. -/
theorem eof_forward_auto_reset_once (s : EstState)
    (p nowT ctxT now2 ctx2 now3 ctx3 rate d : ℚ)
    (hplay : s.isPlayingUI = true) (hloop : s.isLoop = false)
    (hoffset : s.portOffsetMs = 0) (hrate : ¬ rate < 0) (hd : 0 < d)
    (hp : d - END_EPS_MS ≤ p) (hfresh : now2 - nowT < PORT_FRESH_MS) :
    (tick (onPlayheadMessage s "playhead" (JSNum.num p) nowT ctxT) now2 ctx2 rate d).2 =
        [Cmd.stopPulse] ∧
    (tick (onPlayheadMessage s "playhead" (JSNum.num p) nowT ctxT) now2 ctx2 rate d).1.isPlayingUI = false ∧
    (tick (onPlayheadMessage s "playhead" (JSNum.num p) nowT ctxT) now2 ctx2 rate d).1.displayMs = 0 ∧
    tick (tick (onPlayheadMessage s "playhead" (JSNum.num p) nowT ctxT) now2 ctx2 rate d).1 now3 ctx3 rate d =
      ((tick (onPlayheadMessage s "playhead" (JSNum.num p) nowT ctxT) now2 ctx2 rate d).1, []) := by
  rw [onPlayheadMessage_num]
  set s1 : EstState :=
    { s with portPlayheadMs := p, lastPortAt := nowT,
             anchorCtxTime := ctxT, anchorRawMs := p - s.portOffsetMs } with hs1
  have h1 : tick s1 now2 ctx2 rate d = paintFromRaw s1 rate now2 d (getEffectiveRaw s1) :=
    tick_fresh _ _ _ _ _ (by rw [hs1]; exact hplay) (by rw [hs1]; exact hfresh)
  have hger : getEffectiveRaw s1 = p := by
    rw [hs1]; simp [getEffectiveRaw, hoffset]
  have h2 : paintFromRaw s1 rate now2 d p =
      ({ s1 with isPlayingUI := false, displayMs := 0,
                 didAutoResetAfterEOF := true }, [Cmd.stopPulse]) :=
    paintFromRaw_eof_forward _ _ _ _ _ (by rw [hs1]; exact hloop)
      (by rw [hs1]; exact hplay) hrate hd hp
  rw [h1, hger, h2]
  exact ⟨rfl, rfl, rfl, tick_idle_latched _ _ _ _ _ rfl rfl⟩

/-- C1 witness: on a 5000 ms track, rate 1, loop off, fresh telemetry
4997 triggers the single stop pulse, the Idle transition and the display
reset. -/
theorem eof_forward_auto_reset_once_witness :
    (tick (onPlayheadMessage playingState "playhead" (JSNum.num 4997) 1000 10) 1100 10 1 5000).2 =
        [Cmd.stopPulse] ∧
    (tick (onPlayheadMessage playingState "playhead" (JSNum.num 4997) 1000 10) 1100 10 1 5000).1.isPlayingUI = false ∧
    (tick (onPlayheadMessage playingState "playhead" (JSNum.num 4997) 1000 10) 1100 10 1 5000).1.displayMs = 0 ∧
    tick (tick (onPlayheadMessage playingState "playhead" (JSNum.num 4997) 1000 10) 1100 10 1 5000).1 1200 10 1 5000 =
      ((tick (onPlayheadMessage playingState "playhead" (JSNum.num 4997) 1000 10) 1100 10 1 5000).1, []) :=
  eof_forward_auto_reset_once playingState 4997 1000 10 1100 10 1200 10 1 5000
    rfl rfl rfl (by norm_num) (by norm_num) (by norm_num [END_EPS_MS])
    (by norm_num [PORT_FRESH_MS])

/-- C1 counterexample: telemetry position 4990 on a 5000 ms track with
rate 1 and loop disabled is NOT within the code's epsilon
(`END_EPS_MS = 3`, threshold 4997): the next tick keeps playing, displays
4990, and issues no stop pulse — contradicting the claim that 4990
triggers the EOF transition. -/
theorem eof_forward_at_4990_not_detected :
    (tick (onPlayheadMessage playingState "playhead" (JSNum.num 4990) 1000 10) 1100 10 1 5000).1.isPlayingUI = true ∧
    (tick (onPlayheadMessage playingState "playhead" (JSNum.num 4990) 1000 10) 1100 10 1 5000).1.displayMs = 4990 ∧
    (tick (onPlayheadMessage playingState "playhead" (JSNum.num 4990) 1000 10) 1100 10 1 5000).2 = [] := by
  rw [onPlayheadMessage_num]
  rw [tick_fresh _ _ _ _ _ rfl (by norm_num [playingState, PORT_FRESH_MS])]
  have hger : getEffectiveRaw
      ({ playingState with
          portPlayheadMs := 4990,
          lastPortAt := 1000,
          anchorCtxTime := 10,
          anchorRawMs := 4990 - playingState.portOffsetMs }) = 4990 := by
    simp [getEffectiveRaw, playingState]
  rw [hger]
  rw [paintFromRaw_forward_inrange _ _ _ _ _ rfl (by norm_num) (by norm_num)
    (by norm_num) (by norm_num [END_EPS_MS])]
  simp [playingState]

/-- Fields of the state produced by `playFromBeginning`: the loop flag is
preserved, playback is logically active, the display is reset to 0, and
the reverse-EOF grace deadline is armed exactly when the rate is
negative. -/
theorem playFromBeginning_fields (s : EstState) (now ctx rate d : ℚ)
    (hasJ : Bool) (dm : Option ℚ) :
    (playFromBeginning s now ctx rate d hasJ dm).1.isLoop = s.isLoop ∧
    (playFromBeginning s now ctx rate d hasJ dm).1.isPlayingUI = true ∧
    (playFromBeginning s now ctx rate d hasJ dm).1.displayMs = 0 ∧
    (playFromBeginning s now ctx rate d hasJ dm).1.reverseEOFIgnoreUntil =
      (if rate < 0 then now + REVERSE_EOF_GRACE_MS else 0) := by
  simp only [playFromBeginning, resetUIToStart]
  split_ifs <;> simp_all

/-- C4: for the duration of the reverse-EOF grace window after issuing
play with a negative rate and loop disabled, a raw position at or below
`END_EPS_MS` never triggers end-of-media detection (the paint issues no
command and keeps playing); once the window has elapsed, a raw position
at or below `END_EPS_MS` triggers the stop-and-auto-reset behavior. -/
theorem reverse_grace_window_suppresses_then_triggers (s : EstState)
    (now0 ctx0 now1 now2 rate d raw1 raw2 : ℚ) (hasJ : Bool) (dm : Option ℚ)
    (hrate : rate < 0) (hloop : s.isLoop = false) (hd : 0 < d)
    (h1 : now1 < now0 + REVERSE_EOF_GRACE_MS) (hraw1 : raw1 ≤ END_EPS_MS)
    (h2 : now0 + REVERSE_EOF_GRACE_MS ≤ now2) (hraw2 : raw2 ≤ END_EPS_MS) :
    (paintFromRaw (playFromBeginning s now0 ctx0 rate d hasJ dm).1 rate now1 d raw1).2 = [] ∧
    (paintFromRaw (playFromBeginning s now0 ctx0 rate d hasJ dm).1 rate now1 d raw1).1.isPlayingUI = true ∧
    (paintFromRaw (playFromBeginning s now0 ctx0 rate d hasJ dm).1 rate now2 d raw2).2 = [Cmd.stopPulse] ∧
    (paintFromRaw (playFromBeginning s now0 ctx0 rate d hasJ dm).1 rate now2 d raw2).1.isPlayingUI = false ∧
    (paintFromRaw (playFromBeginning s now0 ctx0 rate d hasJ dm).1 rate now2 d raw2).1.displayMs = 0 := by
  obtain ⟨hL, hP, hD, hR⟩ := playFromBeginning_fields s now0 ctx0 rate d hasJ dm
  rw [if_pos hrate] at hR
  have hloop' : (playFromBeginning s now0 ctx0 rate d hasJ dm).1.isLoop = false := by
    rw [hL, hloop]
  have e1 := paintFromRaw_reverse_grace
    (playFromBeginning s now0 ctx0 rate d hasJ dm).1 rate now1 d raw1
    hloop' hrate hd (by rw [hR]; exact h1)
  have e2 := paintFromRaw_reverse_eof
    (playFromBeginning s now0 ctx0 rate d hasJ dm).1 rate now2 d raw2
    hloop' hP hrate hd (by rw [hR]; exact h2) hraw2
  rw [e1, e2]
  exact ⟨rfl, hP, rfl, rfl, rfl⟩

/-- C4 witness: rate -1, 5000 ms track, loop off, play issued at wall
clock 0 — at wall clock 100 (inside the 140 ms grace window) raw 1 is not
treated as EOF; at wall clock 140 the same raw triggers the stop and
reset. -/
theorem reverse_grace_window_witness :
    (paintFromRaw (playFromBeginning playingState 0 0 (-1) 5000 false none).1 (-1) 100 5000 1).2 = [] ∧
    (paintFromRaw (playFromBeginning playingState 0 0 (-1) 5000 false none).1 (-1) 100 5000 1).1.isPlayingUI = true ∧
    (paintFromRaw (playFromBeginning playingState 0 0 (-1) 5000 false none).1 (-1) 140 5000 1).2 = [Cmd.stopPulse] ∧
    (paintFromRaw (playFromBeginning playingState 0 0 (-1) 5000 false none).1 (-1) 140 5000 1).1.isPlayingUI = false ∧
    (paintFromRaw (playFromBeginning playingState 0 0 (-1) 5000 false none).1 (-1) 140 5000 1).1.displayMs = 0 :=
  reverse_grace_window_suppresses_then_triggers playingState 0 0 100 140 (-1) 5000 1 1
    false none (by norm_num) rfl (by norm_num)
    (by norm_num [REVERSE_EOF_GRACE_MS]) (by norm_num [END_EPS_MS])
    (by norm_num [REVERSE_EOF_GRACE_MS]) (by norm_num [END_EPS_MS])

/-- C5: on a playing render tick, the raw position fed to the painter is
`portPlayheadMs - portOffsetMs` when the last telemetry arrived within
`PORT_FRESH_MS`, and the wall-clock extrapolation
`anchorRawMs + elapsedSec * 1000 * rate` (with a zero rate falling back to
1) otherwise; concretely, after a telemetry anchor of 1000 at context
time 0 with rate 2 and no further telemetry, the tick at wall clock
500 ms and context time 0.5 s displays 2000. -/
theorem tick_raw_selection :
    (∀ (s : EstState) (now ctx rate d : ℚ), s.isPlayingUI = true →
      ((now - s.lastPortAt < PORT_FRESH_MS →
        tick s now ctx rate d =
          paintFromRaw s rate now d (s.portPlayheadMs - s.portOffsetMs)) ∧
       (¬ now - s.lastPortAt < PORT_FRESH_MS →
        tick s now ctx rate d =
          paintFromRaw s rate now d
            (s.anchorRawMs + max 0 (ctx - s.anchorCtxTime) * 1000 *
              (if rate = 0 then 1 else rate))))) ∧
    (tick (onPlayheadMessage playingState "playhead" (JSNum.num 1000) 0 0)
        500 (1/2) 2 5000).1.displayMs = 2000 := by
  constructor
  · intro s now ctx rate d hplay
    constructor
    · intro hfresh
      rw [tick_fresh s now ctx rate d hplay hfresh]
      rfl
    · intro hstale
      exact tick_stale s now ctx rate d hplay hstale
  · rw [onPlayheadMessage_num]
    rw [tick_stale _ _ _ _ _ rfl (by norm_num [playingState, PORT_FRESH_MS])]
    norm_num [playingState]
    rw [paintFromRaw_forward_inrange _ _ _ _ _ rfl (by norm_num) (by norm_num)
      (by norm_num) (by norm_num [END_EPS_MS])]

/-- C5 witness: the general tick characterization applied at a concrete
fresh-telemetry state. -/
theorem tick_raw_selection_witness :
    tick playingState 100 7 2 5000 =
      paintFromRaw playingState 2 100 5000
        (playingState.portPlayheadMs - playingState.portOffsetMs) :=
  (tick_raw_selection.1 playingState 100 7 2 5000 rfl).1
    (by norm_num [playingState, PORT_FRESH_MS])

/-- Shape of the loop-OFF branch of the `btnLoop` click handler: write the
loop parameter, rebase the offset to `portPlayheadMs - displayMs`,
re-anchor at the displayed position, and repaint from it. -/
theorem toggleLoopClick_off (s : EstState) (now ctx rate d : ℚ)
    (hloop : s.isLoop = true) :
    toggleLoopClick s now ctx rate d =
      ((paintFromRaw
          ({ s with isLoop := false,
                    portOffsetMs := s.portPlayheadMs - s.displayMs,
                    anchorCtxTime := ctx, anchorRawMs := s.displayMs })
          rate now d s.displayMs).1,
       Cmd.setLoopParam 0 ::
        (paintFromRaw
          ({ s with isLoop := false,
                    portOffsetMs := s.portPlayheadMs - s.displayMs,
                    anchorCtxTime := ctx, anchorRawMs := s.displayMs })
          rate now d s.displayMs).2) := by
  simp only [toggleLoopClick, hloop]
  simp

/-- C3 (amended): toggling loop OFF mid-playback sets the rebase offset to
raw telemetry minus the currently displayed position and re-anchors
extrapolation at that position, so the display immediately after the
toggle equals the display before it and the only device write is the loop
parameter (no start, stop, or seek) — provided the displayed position is
more than `END_EPS_MS` short of the track end (non-negative rate); a
displayed position within `END_EPS_MS` of the end instead takes the EOF
path at the repaint (see the counterexample). -/
theorem loop_off_rebase_continuity (s : EstState) (now ctx rate d : ℚ)
    (hloop : s.isLoop = true) (hrate : ¬ rate < 0)
    (hdisp0 : 0 ≤ s.displayMs) (hdisp1 : s.displayMs < d - END_EPS_MS) :
    (toggleLoopClick s now ctx rate d).1.displayMs = s.displayMs ∧
    (toggleLoopClick s now ctx rate d).1.isPlayingUI = s.isPlayingUI ∧
    (toggleLoopClick s now ctx rate d).1.portOffsetMs = s.portPlayheadMs - s.displayMs ∧
    (toggleLoopClick s now ctx rate d).1.anchorRawMs = s.displayMs ∧
    (toggleLoopClick s now ctx rate d).1.anchorCtxTime = ctx ∧
    (toggleLoopClick s now ctx rate d).2 = [Cmd.setLoopParam 0] := by
  have heps : END_EPS_MS = 3 := rfl
  have hd : 0 < d := by rw [heps] at hdisp1; linarith
  rw [toggleLoopClick_off s now ctx rate d hloop]
  rw [paintFromRaw_forward_inrange _ _ _ _ _ rfl hrate hd hdisp0 hdisp1]
  exact ⟨rfl, rfl, rfl, rfl, rfl, rfl⟩

/-- C3 witness: the spec's scenario — loop on, raw telemetry 7000 on a
3000 ms track displaying the wrapped 1000; toggling loop off keeps the
display at 1000, sets the rebase offset to 6000, and writes only the loop
parameter. -/
theorem loop_off_rebase_continuity_witness :
    (toggleLoopClick loopingAt7000State 0 0 1 3000).1.displayMs = 1000 ∧
    (toggleLoopClick loopingAt7000State 0 0 1 3000).1.portOffsetMs = 6000 ∧
    (toggleLoopClick loopingAt7000State 0 0 1 3000).2 = [Cmd.setLoopParam 0] := by
  obtain ⟨h1, h2, h3, h4, h5, h6⟩ :=
    loop_off_rebase_continuity loopingAt7000State 0 0 1 3000 rfl (by norm_num)
      (by norm_num [loopingAt7000State, playingState])
      (by norm_num [loopingAt7000State, playingState, END_EPS_MS])
  refine ⟨h1.trans ?_, h3.trans ?_, h6⟩ <;>
    norm_num [loopingAt7000State, playingState]

/-- C3 counterexample: with loop on and the wrapped display at 2998 on a
3000 ms track (within `END_EPS_MS` of the end), toggling loop OFF makes
the repaint hit the forward EOF branch: the toggle itself issues a stop
pulse, drops the playing flag and resets the display to 0 — the display
jumps and the toggle stops playback, contradicting the claim as
stated. -/
theorem loop_off_toggle_near_end_stops :
    (toggleLoopClick loopingNearEndState 0 0 1 3000).1.displayMs = 0 ∧
    (toggleLoopClick loopingNearEndState 0 0 1 3000).1.isPlayingUI = false ∧
    (toggleLoopClick loopingNearEndState 0 0 1 3000).2 =
      [Cmd.setLoopParam 0, Cmd.stopPulse] := by
  rw [toggleLoopClick_off loopingNearEndState 0 0 1 3000 rfl]
  rw [paintFromRaw_eof_forward _ _ _ _ _ rfl rfl (by norm_num) (by norm_num)
    (by norm_num [loopingNearEndState, playingState, END_EPS_MS])]
  exact ⟨rfl, rfl, rfl⟩

/-- `stopNow` preserves the loop flag. -/
theorem stopNow_isLoop (s : EstState) (ctx d : ℚ) (hj : Bool) (dm : Option ℚ) :
    (stopNow s ctx d hj dm).1.isLoop = s.isLoop := by
  simp only [stopNow, resetUIToStart]
  split_ifs <;> rfl

/-- The state produced by `playFromBeginning` depends only on the loop
flag of the prior state — every other field is overwritten by the reset
sequence — so two calls made with the same inputs from states agreeing on
the loop flag end in the same state. -/
theorem playFromBeginning_state_ext (s s' : EstState) (now ctx rate d : ℚ)
    (hasJ : Bool) (dm : Option ℚ) (h : s.isLoop = s'.isLoop) :
    (playFromBeginning s now ctx rate d hasJ dm).1 =
      (playFromBeginning s' now ctx rate d hasJ dm).1 := by
  cases s; cases s'
  cases h
  dsimp only [playFromBeginning, resetUIToStart]
  rcases Decidable.em (hasJ = true ∧ 0 < d) with hc | hc
  · simp only [if_pos hc]
  · simp only [if_neg hc]

/-- C6: `playFromBeginning` is idempotent with respect to the resulting
state: calling it twice in a row (without an intervening stop) ends in
exactly the state that stop-then-play ends in, for the same second-call
inputs; the final display is reset to the start, playback is logically
active, and the call issues both a device stop pulse and a play pulse —
regardless of prior playback history. -/
theorem playFromBeginning_idempotent_rearm (s : EstState)
    (n1 c1 r1 d1 n2 c2 r2 d2 cs ds : ℚ) (hj1 hj2 hjs : Bool)
    (dm1 dm2 dms : Option ℚ) :
    (playFromBeginning (playFromBeginning s n1 c1 r1 d1 hj1 dm1).1 n2 c2 r2 d2 hj2 dm2).1 =
      (playFromBeginning (stopNow s cs ds hjs dms).1 n2 c2 r2 d2 hj2 dm2).1 ∧
    Cmd.stopPulse ∈ (playFromBeginning s n2 c2 r2 d2 hj2 dm2).2 ∧
    Cmd.playPulse ∈ (playFromBeginning s n2 c2 r2 d2 hj2 dm2).2 ∧
    (playFromBeginning s n2 c2 r2 d2 hj2 dm2).1.isPlayingUI = true ∧
    (playFromBeginning s n2 c2 r2 d2 hj2 dm2).1.displayMs = 0 := by
  obtain ⟨hL2, hP2, hD2, _⟩ := playFromBeginning_fields s n2 c2 r2 d2 hj2 dm2
  refine ⟨?_, ?_, ?_, hP2, hD2⟩
  · apply playFromBeginning_state_ext
    rw [(playFromBeginning_fields s n1 c1 r1 d1 hj1 dm1).1, stopNow_isLoop]
  · simp only [playFromBeginning]
    split_ifs <;> simp
  · simp only [playFromBeginning]
    split_ifs <;> simp

/-- `clamp01` yields a value in `[0, 1]`. -/
theorem clamp01_nonneg (x : ℚ) : 0 ≤ clamp01 x := by
  unfold clamp01; split_ifs <;> linarith

theorem clamp01_le_one (x : ℚ) : clamp01 x ≤ 1 := by
  unfold clamp01; split_ifs <;> linarith

/-- playlist-ui.js's `clampJumpToMs` keeps the written seek value inside
`[0, durationMs - 1]` whenever the duration exceeds 1 ms. -/
theorem clampJumpToMs_bounds (ms dur : ℚ) (hdur : 1 < dur) :
    0 ≤ clampJumpToMs ms (some dur) ∧ clampJumpToMs ms (some dur) ≤ dur - 1 := by
  simp only [clampJumpToMs, if_pos hdur]
  constructor
  · exact le_max_left 0 _
  · apply max_le
    · linarith
    · exact le_trans (min_le_right _ _) (by exact_mod_cast Int.floor_le (dur - 1))

/-- C7 (amended): in src/js/playlist-ui.js, `clampJumpToMs` clamps every
seek target into `[0, durationMs - 1]` whenever the clip duration exceeds
1 ms; in part_003, with loop disabled and a non-negative rate,
`seekToFrac` writes the device's `jumpto` parameter and rebases the
offset and anchors to the target so the display equals the target
immediately — provided the target lies below `durationMs - END_EPS_MS`
(3 ms).  Any target within `END_EPS_MS` of the end — 2997 and above on a
3000 ms clip, including exactly the end, which part_003's `setJumpToMs`
writes unclamped since it clamps only into `[0, durationMs]` — instead
takes the EOF path at the repaint: a stop pulse and display 0, not the
target (see the counterexample for both the exact-end and the near-end
case). -/
theorem seek_clamp_and_rebase (ms dur : ℚ) (s : EstState)
    (frac now ctx rate d : ℚ) (b : Bool) (dm : Option ℚ)
    (hdur : 1 < dur) (hloop : s.isLoop = false) (hrate : ¬ rate < 0)
    (hd : 0 < d) (htarget : clamp01 frac * d < d - END_EPS_MS) :
    (0 ≤ clampJumpToMs ms (some dur) ∧ clampJumpToMs ms (some dur) ≤ dur - 1) ∧
    (seekToFrac s frac b now ctx rate d true dm).1.displayMs = clamp01 frac * d ∧
    (seekToFrac s frac b now ctx rate d true dm).1.portOffsetMs =
      s.portPlayheadMs - clamp01 frac * d ∧
    (seekToFrac s frac b now ctx rate d true dm).1.anchorRawMs = clamp01 frac * d ∧
    (seekToFrac s frac b now ctx rate d true dm).2 =
      [Cmd.setJumpTo (setJumpToWritten (clamp01 frac * d) d dm)] := by
  refine ⟨clampJumpToMs_bounds ms dur hdur, ?_⟩
  have htnn : 0 ≤ clamp01 frac * d := mul_nonneg (clamp01_nonneg frac) hd.le
  simp only [seekToFrac]
  rw [if_neg (by simp)]
  have hpaint := paintFromRaw_forward_inrange
    ({ s with portOffsetMs := s.portPlayheadMs - clamp01 frac * d,
              anchorCtxTime := ctx, anchorRawMs := clamp01 frac * d,
              didAutoResetAfterEOF := false })
    rate now d (clamp01 frac * d) (by exact hloop) hrate hd htnn htarget
  rw [hpaint]
  cases b <;> exact ⟨rfl, rfl, rfl, rfl⟩

/-- C7 witness: the clamp applied to target 5000 on a 3000 ms clip, and
`seekToFrac` at fraction 1/2 of a 3000 ms clip (target 1500). -/
theorem seek_clamp_and_rebase_witness :
    (0 ≤ clampJumpToMs 5000 (some 3000) ∧
      clampJumpToMs 5000 (some 3000) ≤ 3000 - 1) ∧
    (seekToFrac playingState (1/2) false 0 0 1 3000 true none).1.displayMs =
      clamp01 (1/2) * 3000 ∧
    (seekToFrac playingState (1/2) false 0 0 1 3000 true none).1.portOffsetMs =
      playingState.portPlayheadMs - clamp01 (1/2) * 3000 ∧
    (seekToFrac playingState (1/2) false 0 0 1 3000 true none).1.anchorRawMs =
      clamp01 (1/2) * 3000 ∧
    (seekToFrac playingState (1/2) false 0 0 1 3000 true none).2 =
      [Cmd.setJumpTo (setJumpToWritten (clamp01 (1/2) * 3000) 3000 none)] :=
  seek_clamp_and_rebase 5000 3000 playingState (1/2) 0 0 1 3000 false none
    (by norm_num) rfl (by norm_num) (by norm_num)
    (by norm_num [clamp01, END_EPS_MS])

/-- C7 counterexample: part_003's `seekToFrac` fails the claim in the
whole `END_EPS_MS` end zone, not just at the very end.  At fraction 1 on
a 3000 ms clip it writes `jumpto = 3000` — exactly the track end, not
`durationMs - 1` — and at fraction 2998/3000 the written value 2998 is in
range but still within 3 ms of the end; in both cases the repaint
immediately takes the EOF path: a stop pulse is issued and the display
lands at 0, not at the seek target. -/
theorem seekToFrac_end_zone_eof :
    ((seekToFrac playingState 1 false 0 0 1 3000 true none).2 =
      [Cmd.setJumpTo 3000, Cmd.stopPulse] ∧
     (seekToFrac playingState 1 false 0 0 1 3000 true none).1.displayMs = 0 ∧
     (seekToFrac playingState 1 false 0 0 1 3000 true none).1.isPlayingUI = false) ∧
    ((seekToFrac playingState (2998/3000) false 0 0 1 3000 true none).2 =
      [Cmd.setJumpTo 2998, Cmd.stopPulse] ∧
     (seekToFrac playingState (2998/3000) false 0 0 1 3000 true none).1.displayMs = 0 ∧
     (seekToFrac playingState (2998/3000) false 0 0 1 3000 true none).1.isPlayingUI = false) := by
  constructor
  · have htarget : clamp01 1 * (3000:ℚ) = 3000 := by norm_num [clamp01]
    have hw : setJumpToWritten 3000 3000 none = 3000 := by
      norm_num [setJumpToWritten, clamp01]
    simp only [seekToFrac, htarget]
    rw [if_neg (by simp)]
    rw [paintFromRaw_eof_forward _ _ _ _ _ rfl rfl (by norm_num) (by norm_num)
      (by norm_num [END_EPS_MS])]
    exact ⟨by rw [hw], rfl, rfl⟩
  · have htarget : clamp01 (2998/3000) * (3000:ℚ) = 2998 := by norm_num [clamp01]
    have hw : setJumpToWritten 2998 3000 none = 2998 := by
      norm_num [setJumpToWritten, clamp01]
    simp only [seekToFrac, htarget]
    rw [if_neg (by simp)]
    rw [paintFromRaw_eof_forward _ _ _ _ _ rfl rfl (by norm_num) (by norm_num)
      (by norm_num [END_EPS_MS])]
    exact ⟨by rw [hw], rfl, rfl⟩

/-- C8: the spec's reorder scenario — clips [A, B, C], B selected at
index 1, dragging A to after C.  playlist-ui.js's `reorderPlaylist`
(insertion-gap index 3, adjusted to 2) keeps B selected at index 0 as the
claim demands, but part_003's drop handler — which looks the selected name
up AFTER splicing, against its own comment "keep selection pointing to
same item" — leaves the selection at index 1, which is now clip C. -/
theorem reorder_selection_part003_vs_reorderPlaylist :
    dropHandlerPart003 ["A", "B", "C"] 1 0 2 = (["B", "C", "A"], 1) ∧
    reorderPlaylist ["A", "B", "C"] 1 0 3 = (["B", "C", "A"], 0) := by
  constructor <;> rfl

/-- C9 (amended): part_003's playhead subscriber discards a non-finite
telemetry payload without changing any estimator state — the raw port
value, its arrival stamp, the extrapolation anchors, and the displayed
position all keep their last good values. -/
theorem nonfinite_telemetry_discarded (s : EstState) (v : JSNum) (now ctx : ℚ)
    (hv : v.isFinite = false) :
    onPlayheadMessage s "playhead" v now ctx = s := by
  cases v with
  | num q => simp [JSNum.isFinite] at hv
  | nan => rfl
  | posInf => rfl
  | negInf => rfl

/-- C9 witness: a `NaN` payload leaves the playing state untouched. -/
theorem nonfinite_telemetry_discarded_witness :
    onPlayheadMessage playingState "playhead" JSNum.nan 5 5 = playingState :=
  nonfinite_telemetry_discarded playingState JSNum.nan 5 5 rfl

/-- C9 counterexample: playlist-ui.js's subscriber has no finiteness
guard: a `NaN` playhead report is stored into `lastPlayheadMs` (the state
changes) and, because playback is considered active and the paint is not
throttled, `NaN` is painted to the readout — contradicting the claim for
this variant, which the claim also cites. -/
theorem plSubscriber_nan_reaches_display :
    (plSubscriber plPlayingState "playhead" JSNum.nan 1000 0 false 5000).1.lastPlayheadMs = JSNum.nan ∧
    (plSubscriber plPlayingState "playhead" JSNum.nan 1000 0 false 5000).1.readout = some JSNum.nan ∧
    (plSubscriber plPlayingState "playhead" JSNum.nan 1000 0 false 5000).2 = [] := by
  norm_num [plSubscriber, plPlayingState, JSNum.gt, JSNum.lt, JSNum.le,
    JSNum.add, PLAYHEAD_THROTTLE_MS]

/-- C10 (amended): part_003's playhead subscriber never changes the
logical transport state: whatever the tag or payload, `isPlayingUI` and
the displayed position are exactly what they were — telemetry during Idle
only updates Timebase fields. -/
theorem idle_telemetry_preserves_transport (s : EstState) (tag : String)
    (v : JSNum) (now ctx : ℚ) :
    (onPlayheadMessage s tag v now ctx).isPlayingUI = s.isPlayingUI ∧
    (onPlayheadMessage s tag v now ctx).displayMs = s.displayMs := by
  unfold onPlayheadMessage
  split_ifs
  · exact ⟨rfl, rfl⟩
  · cases v <;> exact ⟨rfl, rfl⟩

/-- C10 counterexample: playlist-ui.js's subscriber infers activity from
the playhead: a report of 100 ms arriving while Idle (isPlaying = false,
last playhead 0) flips `isPlaying` to true and paints the readout —
the logical transport state is NOT left unchanged by that variant, which
the claim also cites. -/
theorem plSubscriber_idle_telemetry_starts_playing :
    plIdleState.isPlaying = false ∧
    (plSubscriber plIdleState "playhead" (JSNum.num 100) 1000 0 false 5000).1.isPlaying = true ∧
    (plSubscriber plIdleState "playhead" (JSNum.num 100) 1000 0 false 5000).1.readout =
      some (JSNum.num 100) := by
  refine ⟨rfl, ?_, ?_⟩ <;>
    norm_num [plSubscriber, plIdleState, JSNum.gt, JSNum.lt, JSNum.le,
      JSNum.add, PLAYHEAD_THROTTLE_MS]
